import Mathlib

/-!
Verification of the Clypse cross-device file and clipboard sharing demo.

The repository holds several near-duplicate page controllers (src/app.js and
three further source files).  This development embeds the operations that the
design documentation's testable properties talk about:

* short-code generation (`generateCodeFuel`, `generateCodeOnce`,
  `generateCodeStoreFuel`),
* the localStorage-backed file store of the ClypseApp variant
  (`uploadFile`, `accessFile`, `cleanupExpiredFiles`),
* room messaging and polling (`sendMessage`, `checkForNewMessages`,
  `leaveRoom`),
* the bounded history and message appends (`addToClipboardHistory`,
  `sendMessageSimple`).

Randomness is modelled by a stream `rand : Nat → Fin 32` of the values
`Math.floor(Math.random() * codeChars.length)` drawn by the source, and the
unbounded collision-retry recursion of `generateCode` is embedded with
explicit fuel: `none` means the recursion did not finish within the given
number of attempts.
-/

namespace Clypse

/-- Code alphabet shared by every variant:
`codeChars: 'ABCDEFGHJKLMNPQRSTUVWXYZ23456789'` (src/app.js line 9). -/
def codeChars : String := "ABCDEFGHJKLMNPQRSTUVWXYZ23456789"

/-- Configured code length, `codeLength: 4` (src/app.js line 10). -/
def codeLength : Nat := 4

/-- One character pick, `codeChars.charAt(i)` at the always-in-range index
`i = Math.floor(Math.random() * codeChars.length)`. -/
def codeCharAt (i : Fin 32) : Char :=
  codeChars.toList.get (Fin.cast (rfl : (32 : Nat) = codeChars.toList.length) i)

/-- One sampling pass of `generateCode`, the four-iteration loop
`code += codeChars.charAt(Math.floor(Math.random() * codeChars.length))`.
`attempt` numbers the recursive call, so each pass consumes the next four
values of the random stream. -/
def sampleCode (rand : Nat → Fin 32) (attempt : Nat) : String :=
  String.mk ((List.range codeLength).map fun i =>
    codeCharAt (rand (codeLength * attempt + i)))

/-- `Clypse.generateCode` of src/app.js (lines 911-923): sample a code and,
if some stored file record already carries it
(`this.files.some(f => f.code === code)`), call itself again.  `liveCodes`
is the list of codes of the stored records.  The source recursion has no
bound, so the embedding takes fuel and returns `none` when the given number
of attempts is used up without producing a code. -/
def generateCodeFuel (liveCodes : List String) (rand : Nat → Fin 32) :
    Nat → Nat → Option String
  | 0, _ => none
  | fuel + 1, attempt =>
    let code := sampleCode rand attempt
    if liveCodes.contains code then generateCodeFuel liveCodes rand fuel (attempt + 1)
    else some code

/-- `Clypse.generateCode` of the URL-fragment variant (src/unnamed/part_001
lines 853-859): a single sampling pass, with no liveness check at all. -/
def generateCodeOnce (rand : Nat → Fin 32) : String :=
  sampleCode rand 0

/-- A stored file record of the ClypseApp variant (src/unnamed/part_001
lines 1910-1918). -/
structure FileData where
  code : String
  name : String
  size : Nat
  type : String
  base64 : String
  uploaded : Nat
  expires : Nat
  deriving DecidableEq

/-- A room message of the ClypseApp variant (src/unnamed/part_001
lines 2239-2244). -/
structure Message where
  id : String
  text : String
  device : String
  timestamp : Nat
  deriving DecidableEq

/-- A device-map entry of a stored room record (src/unnamed/part_001
lines 2198-2201). -/
structure Device where
  lastSeen : Nat
  name : String
  deriving DecidableEq

/-- A stored room record of the ClypseApp variant (src/unnamed/part_001
lines 2032-2037): message list, device map and creation time. -/
structure RoomData where
  code : String
  messages : List Message
  devices : List (String × Device)
  created : Nat
  deriving DecidableEq

/-- A value held by localStorage.  File keys (`clypse_file_` plus the code)
hold JSON file records, room keys (`clypse_room_` plus the code) hold JSON
room records, and the remaining keys (device id, theme) hold plain strings
on which `JSON.parse` throws. -/
inductive StoredValue where
  | file (fd : FileData)
  | room (rd : RoomData)
  | raw (s : String)
  deriving DecidableEq

/-- The localStorage contents, as an association list of key/value pairs. -/
abbrev Store := List (String × StoredValue)

/-- JS `localStorage.getItem(k)`. -/
def getItem (s : Store) (k : String) : Option StoredValue :=
  (s.find? fun kv => kv.1 == k).map (·.2)

/-- JS `localStorage.setItem(k, v)`: replaces any existing binding of `k`. -/
def setItem (s : Store) (k : String) (v : StoredValue) : Store :=
  (k, v) :: (s.filter fun kv => kv.1 != k)

/-- JS `localStorage.removeItem(k)`. -/
def removeItem (s : Store) (k : String) : Store :=
  s.filter fun kv => kv.1 != k

/-- File storage key of the ClypseApp variant, the configured
`clypse_file_` key start followed by the code. -/
def fileKeyOf (code : String) : String := "clypse_file_" ++ code

/-- Room storage key of the ClypseApp variant, the configured
`clypse_room_` key start followed by the code. -/
def roomKeyOf (code : String) : String := "clypse_room_" ++ code

/-- `fileExpiry: 24 * 60 * 60 * 1000` milliseconds (ClypseApp config,
src/unnamed/part_001 line 1618). -/
def fileExpiry : Nat := 24 * 60 * 60 * 1000

/-- Storage effect of `ClypseApp.uploadFile` (src/unnamed/part_001 lines
1902-1932): write the record of the freshly converted file under the file
key of the generated code, with `uploaded = Date.now()` and
`expires = Date.now() + fileExpiry`.  `base64` is the data-URL string the
FileReader produced. -/
def uploadFile (store : Store) (code name ftype base64 : String)
    (size now : Nat) : Store :=
  setItem store (fileKeyOf code)
    (.file { code := code, name := name, size := size, type := ftype,
             base64 := base64, uploaded := now, expires := now + fileExpiry })

/-- Outcome of `ClypseApp.accessFile`, as surfaced to the user. -/
inductive AccessResult where
  | invalidCode
  | notFound
  | expired
  | success (fd : FileData)
  | parseFailed
  deriving DecidableEq

/-- `ClypseApp.accessFile` (src/unnamed/part_001 lines 1943-1979).  `code`
is the trimmed input `accessCode.value.trim()`; returns the user-facing
outcome together with the updated store, since an expired record is removed
on access.  File keys only ever hold file records, so the unreachable
non-file arms collapse into the `catch` outcome. -/
def accessFile (store : Store) (code : String) (now : Nat) :
    AccessResult × Store :=
  if code.length ≠ 4 then (.invalidCode, store)
  else
    match getItem store (fileKeyOf code) with
    | none => (.notFound, store)
    | some (.file fd) =>
      if now > fd.expires then (.expired, removeItem store (fileKeyOf code))
      else (.success fd, store)
    | some _ => (.parseFailed, store)

/-- A stored file record of src/app.js (lines 381-389); the payload lives
behind `downloadUrl` at the external host. -/
structure AppFile where
  id : String
  code : String
  fileName : String
  size : String
  uploadTime : String
  downloadUrl : String
  fileKey : Option String
  deriving DecidableEq

/-- Outcome of `Clypse.accessFile` of src/app.js. -/
inductive AppAccessResult where
  | invalid
  | found (f : AppFile)
  | notFound
  deriving DecidableEq

/-- `Clypse.accessFile` of src/app.js (lines 449-466): reject when the
trimmed uppercased input is empty or not 4 characters long
(`!code || code.length !== 4`), otherwise look the code up in `this.files`
(`this.files.find(f => f.code === code)`). -/
def accessFileApp (files : List AppFile) (code : String) : AppAccessResult :=
  if code = "" ∨ code.length ≠ 4 then .invalid
  else
    match files.find? fun f => f.code == code with
    | some f => .found f
    | none => .notFound

/-- `ClypseApp.generateCode` (src/unnamed/part_001 lines 2458-2471): sample
a code, then call itself again while `localStorage.getItem` of the file key
of the code is non-null; fuel as in `generateCodeFuel`. -/
def generateCodeStoreFuel (store : Store) (rand : Nat → Fin 32) :
    Nat → Nat → Option String
  | 0, _ => none
  | fuel + 1, attempt =>
    let code := sampleCode rand attempt
    match getItem store (fileKeyOf code) with
    | some _ => generateCodeStoreFuel store rand fuel (attempt + 1)
    | none => some code

/-- One removal test of `ClypseApp.cleanupExpiredFiles`: a file-prefixed key
(JS `key.startsWith('clypse_file_')`, taken here on the character lists) is
collected for removal when its parsed record has passed its expiry
(`Date.now() > fileData.expires`), or when parsing throws (`raw` values).
Room records parse fine, and their missing `expires` field makes the
comparison false. -/
def shouldRemove (now : Nat) (k : String) (v : StoredValue) : Bool :=
  ("clypse_file_" : String).toList.isPrefixOf k.toList &&
    match v with
    | .file fd => decide (now > fd.expires)
    | .room _ => false
    | .raw _ => true

/-- `ClypseApp.cleanupExpiredFiles` (src/unnamed/part_001 lines 2412-2432):
scan every stored key, collect the removable file keys, then remove each
collected key.  `init` schedules this every 60 s via `setInterval`. -/
def cleanupExpiredFiles (now : Nat) (s : Store) : Store :=
  let toRemove := (s.filter fun kv => shouldRemove now kv.1 kv.2).map (·.1)
  s.filter fun kv => !(toRemove.contains kv.1)

/-- Storage effect of `ClypseApp.sendMessage` (src/unnamed/part_001 lines
2224-2266): prepend the new message (`unshift`), truncate to the most
recent 100 (`slice(0, 100)` when longer), and write the room back.  When
the room key is absent the source returns without writing. -/
def sendMessage (store : Store) (room : String) (msg : Message) : Store :=
  match getItem store (roomKeyOf room) with
  | some (.room rd) =>
    let m1 := msg :: rd.messages
    let m2 := if m1.length > 100 then m1.take 100 else m1
    setItem store (roomKeyOf room) (.room { rd with messages := m2 })
  | _ => store

/-- One poll tick of a participant view, `ClypseApp.checkForNewMessages`
(src/unnamed/part_001 lines 2169-2181): re-read the stored room and, when
the stored message count differs from the last-seen count
(`roomData.messages.length !== this.messageCount`), adopt the stored count
and re-render the stored list.  The result pair is the view state: the
last-seen count and the rendered message list. -/
def checkForNewMessages (store : Store) (currentRoom : Option String)
    (messageCount : Nat) (rendered : List Message) : Nat × List Message :=
  match currentRoom with
  | none => (messageCount, rendered)
  | some room =>
    match getItem store (roomKeyOf room) with
    | some (.room rd) =>
      if rd.messages.length ≠ messageCount then (rd.messages.length, rd.messages)
      else (messageCount, rendered)
    | _ => (messageCount, rendered)

/-- The per-view controller state touched by `leaveRoom`: the joined room
and whether the poll and heartbeat interval timers are running. -/
structure PollState where
  currentRoom : Option String
  pollTimer : Bool
  heartbeatTimer : Bool
  deriving DecidableEq

/-- `ClypseApp.leaveRoom` (src/unnamed/part_001 lines 2088-2113): clear
both interval timers, delete this device from the stored room record
(`delete roomData.devices[this.deviceId]`), and reset `currentRoom`. -/
def leaveRoom (st : PollState) (deviceId : String) (store : Store) :
    PollState × Store :=
  let store' :=
    match st.currentRoom with
    | some room =>
      match getItem store (roomKeyOf room) with
      | some (.room rd) =>
        setItem store (roomKeyOf room)
          (.room { rd with devices := rd.devices.filter fun d => d.1 != deviceId })
      | _ => store
    | none => store
  ({ currentRoom := none, pollTimer := false, heartbeatTimer := false }, store')

/-- Lookup of one device entry in a room record's device map. -/
def lookupDev (devs : List (String × Device)) (id : String) : Option Device :=
  (devs.find? fun d => d.1 == id).map (·.2)

/-- A clipboard history entry of src/app.js (lines 781-786). -/
structure HistItem where
  id : String
  content : String
  timestamp : String
  deviceSource : String
  deriving DecidableEq

/-- `Clypse.addToClipboardHistory` (src/app.js lines 772-797): ignore short
content (`!content || content.length < 4`) and duplicate content, otherwise
prepend a new entry with the content clipped to 200 characters
(`substring(0, 200)`) and keep only the most recent 50 (`slice(0, 50)`). -/
def addToClipboardHistory (history : List HistItem) (content : String)
    (id timestamp deviceSource : String) : List HistItem :=
  if content.length < 4 then history
  else if history.any fun item => item.content == content then history
  else
    let item : HistItem :=
      { id := id, content := String.mk (content.toList.take 200),
        timestamp := timestamp, deviceSource := deviceSource }
    let h1 := item :: history
    if h1.length > 50 then h1.take 50 else h1

/-- A message of the simple clipboard variant (src/unnamed/part_002 lines
193-199). -/
structure SimpleMessage where
  id : Nat
  content : String
  timestamp : Nat
  device : String
  deviceId : String
  deriving DecidableEq

/-- List effect of `sendMessage` of src/unnamed/part_002 (lines 171-222):
prepend the message (`unshift`) and truncate to the first 50 entries
(`splice(50)` when longer). -/
def sendMessageSimple (messages : List SimpleMessage) (msg : SimpleMessage) :
    List SimpleMessage :=
  let m1 := msg :: messages
  if m1.length > 50 then m1.take 50 else m1

/-- Random stream that always yields index 0, so every sampling pass
produces the code `AAAA`. -/
def randZero : Nat → Fin 32 := fun _ => 0

/-- A live-code set holding the single code `AAAA`; one live code is far
from exhausting the code space of 32 ^ 4 codes. -/
def liveAAAA : List String := ["AAAA"]

/-- A room message used to fill a room to its 100-message bound. -/
def msgOld : Message := { id := "m0", text := "old", device := "A", timestamp := 0 }

/-- The message appended by the second view in the at-capacity scenario. -/
def msgNew : Message := { id := "m1", text := "new", device := "B", timestamp := 1 }

/-- A room record that already holds 100 stored messages. -/
def roomFull : RoomData :=
  { code := "QQQQ", messages := List.replicate 100 msgOld, devices := [], created := 0 }

/-- A store holding only the full room. -/
def storeFull : Store := [(roomKeyOf ("QQQQ"), .room roomFull)]

/-- A room record with no messages yet, for the below-cap scenario. -/
def roomEmptyQ : RoomData :=
  { code := "QQQQ", messages := [], devices := [], created := 0 }

/-- A store holding only the empty room. -/
def storeEmptyRoom : Store := [(roomKeyOf ("QQQQ"), .room roomEmptyQ)]

/-- A concrete message of the simple clipboard variant. -/
def simpleMsg : SimpleMessage :=
  { id := 1, content := "x", timestamp := 0, device := "d", deviceId := "dev" }

/-- A concrete device entry. -/
def devA : Device := { lastSeen := 0, name := "A" }

/-- A second concrete device entry. -/
def devB : Device := { lastSeen := 1, name := "B" }

/-- A room record with one message and two joined devices. -/
def roomWithDevs : RoomData :=
  { code := "QQQQ", messages := [msgOld],
    devices := [("d1", devA), ("d2", devB)], created := 0 }

/-- A store holding only the two-device room. -/
def storeWithDevs : Store := [(roomKeyOf ("QQQQ"), .room roomWithDevs)]

/-- A view state joined to the two-device room with both timers running. -/
def pollSt : PollState :=
  { currentRoom := some "QQQQ", pollTimer := true, heartbeatTimer := true }

/-- A fresh stored file record, unexpired at time 5. -/
def fdFresh : FileData :=
  { code := "AAAA", name := "a", size := 1, type := "t", base64 := "d",
    uploaded := 0, expires := 9 }

/-- A stored file record already past its expiry at time 5. -/
def fdStale : FileData :=
  { code := "BBBB", name := "b", size := 1, type := "t", base64 := "e",
    uploaded := 0, expires := 3 }

/-- A store holding one fresh and one stale file record. -/
def storeTwoFiles : Store :=
  [(fileKeyOf ("AAAA"), .file fdFresh), (fileKeyOf ("BBBB"), .file fdStale)]

/-- Helper: removing the bindings of key `k` does not change `find?` for a
different key `j`. -/
theorem find?_key_filter_ne {β : Type} (l : List (String × β)) (k j : String)
    (h : j ≠ k) :
    ((l.filter fun p => p.1 != k).find? fun p => p.1 == j) =
      l.find? fun p => p.1 == j := by
  induction l with
  | nil => rfl
  | cons a t ih =>
    by_cases hak : a.1 = k
    · have hj : ¬ a.1 = j := by rw [hak]; exact fun hkj => h hkj.symm
      rw [List.filter_cons, if_neg (by simp [hak]), ih,
        List.find?_cons_of_neg _ (by simp [hj])]
    · by_cases haj : a.1 = j
      · rw [List.filter_cons, if_pos (by simp [hak]),
          List.find?_cons_of_pos _ (by simp [haj]),
          List.find?_cons_of_pos _ (by simp [haj])]
      · rw [List.filter_cons, if_pos (by simp [hak]),
          List.find?_cons_of_neg _ (by simp [haj]),
          List.find?_cons_of_neg _ (by simp [haj]), ih]

/-- Helper: after removing the bindings of key `k`, `find?` of `k` fails. -/
theorem find?_key_filter_self {β : Type} (l : List (String × β)) (k : String) :
    ((l.filter fun p => p.1 != k).find? fun p => p.1 == k) = none := by
  induction l with
  | nil => rfl
  | cons a t ih =>
    by_cases hak : a.1 = k
    · simp [List.filter_cons, hak, ih]
    · simp [List.filter_cons, hak, ih]

/-- Helper: `getItem` after `setItem` of the same key returns the new value. -/
theorem getItem_setItem_self (s : Store) (k : String) (v : StoredValue) :
    getItem (setItem s k v) k = some v := by
  simp [getItem, setItem]

/-- Helper: `getItem` after `setItem` of a different key is unchanged. -/
theorem getItem_setItem_ne (s : Store) (k j : String) (v : StoredValue)
    (h : j ≠ k) : getItem (setItem s k v) j = getItem s j := by
  have hkj : ¬ k = j := fun hkj => h hkj.symm
  simp only [getItem, setItem]
  rw [List.find?_cons_of_neg _ (by simpa using hkj), find?_key_filter_ne s k j h]

/-- Helper: every sampled code has length 4. -/
theorem sampleCode_length (rand : Nat → Fin 32) (attempt : Nat) :
    (sampleCode rand attempt).length = 4 := by
  simp [sampleCode, codeLength]

/-- Helper: the character list of a sampled code, by definition. -/
theorem sampleCode_toList (rand : Nat → Fin 32) (attempt : Nat) :
    (sampleCode rand attempt).toList =
      (List.range codeLength).map fun i =>
        codeCharAt (rand (codeLength * attempt + i)) := rfl

/-- Helper: every picked character belongs to the alphabet. -/
theorem codeCharAt_mem (i : Fin 32) : codeCharAt i ∈ codeChars.toList :=
  List.get_mem _ _ _

/-- Helper: every character of a sampled code belongs to the alphabet. -/
theorem sampleCode_mem_codeChars (rand : Nat → Fin 32) (attempt : Nat) :
    ∀ ch ∈ (sampleCode rand attempt).toList, ch ∈ codeChars.toList := by
  intro ch hch
  rw [sampleCode_toList] at hch
  obtain ⟨i, -, rfl⟩ := List.mem_map.mp hch
  exact codeCharAt_mem _

/-- Helper: any code returned by the src/app.js `generateCode` is some
sampling pass and passed the collision check. -/
theorem generateCodeFuel_spec (liveCodes : List String) (rand : Nat → Fin 32) :
    ∀ fuel attempt c, generateCodeFuel liveCodes rand fuel attempt = some c →
      (∃ k, c = sampleCode rand k) ∧ c ∉ liveCodes := by
  intro fuel
  induction fuel with
  | zero => intro a c h; simp [generateCodeFuel] at h
  | succ n ih =>
    intro a c h
    simp only [generateCodeFuel] at h
    split at h
    · exact ih _ _ h
    · next hc =>
      obtain rfl : sampleCode rand a = c := Option.some.inj h
      exact ⟨⟨a, rfl⟩, fun hmem => hc (List.elem_iff.mpr hmem)⟩

/-- Helper: when every sampling pass collides, the src/app.js
`generateCode` recursion never returns, whatever the fuel. -/
theorem generateCodeFuel_none_of_allLive (liveCodes : List String)
    (rand : Nat → Fin 32) (h : ∀ k, sampleCode rand k ∈ liveCodes) :
    ∀ fuel attempt, generateCodeFuel liveCodes rand fuel attempt = none := by
  intro fuel
  induction fuel with
  | zero => intro a; rfl
  | succ n ih =>
    intro a
    simp only [generateCodeFuel]
    rw [if_pos (List.elem_iff.mpr (h a))]
    exact ih _

/-- Helper: any code returned by the ClypseApp `generateCode` is a sampling
pass whose file key is unbound in the store. -/
theorem generateCodeStoreFuel_spec (store : Store) (rand : Nat → Fin 32) :
    ∀ fuel attempt c, generateCodeStoreFuel store rand fuel attempt = some c →
      (∃ k, c = sampleCode rand k) ∧ getItem store (fileKeyOf c) = none := by
  intro fuel
  induction fuel with
  | zero => intro a c h; simp [generateCodeStoreFuel] at h
  | succ n ih =>
    intro a c h
    simp only [generateCodeStoreFuel] at h
    split at h
    · exact ih _ _ h
    · next hnone =>
      obtain rfl : sampleCode rand a = c := Option.some.inj h
      exact ⟨⟨a, rfl⟩, hnone⟩

/-- C1 counterexample: the fixed code alphabet (the `codeChars` string of
uppercase letters and digits without O, I, 0 and 1) holds exactly 32
distinct symbols, not 33 as the claim states. -/
theorem codeChars_has_32_symbols :
    codeChars.toList.length = 32 ∧ codeChars.toList.Nodup ∧
      codeChars.toList.length ≠ 33 := by decide

/-- C1 (amended): every code returned by short-code generation is exactly
4 characters long and every character is drawn from the fixed 32-symbol
alphabet `codeChars`. -/
theorem generateCode_length_and_alphabet (liveCodes : List String)
    (rand : Nat → Fin 32) (fuel attempt : Nat) (c : String)
    (h : generateCodeFuel liveCodes rand fuel attempt = some c) :
    c.length = 4 ∧ ∀ ch ∈ c.toList, ch ∈ codeChars.toList := by
  obtain ⟨⟨k, rfl⟩, -⟩ := generateCodeFuel_spec liveCodes rand fuel attempt c h
  exact ⟨sampleCode_length rand k, sampleCode_mem_codeChars rand k⟩

/-- C1 witness: the first sampled code of the constant-zero stream is
returned at fuel 1 against an empty live set and satisfies the length and
alphabet property. -/
theorem generateCode_length_and_alphabet_witness :
    ("AAAA" : String).length = 4 ∧
      ∀ ch ∈ ("AAAA" : String).toList, ch ∈ codeChars.toList :=
  generateCode_length_and_alphabet [] randZero 1 0 "AAAA" (by decide)

/-- C2 counterexample: the URL-fragment variant of `generateCode` returns
its sample without any liveness check, so with one live code `AAAA` (far
from exhausting the code space of 32 ^ 4 codes) the constant-zero stream
makes it return exactly that live code. -/
theorem generateCodeOnce_returns_live_code :
    generateCodeOnce randZero ∈ liveAAAA ∧ liveAAAA.length = 1 ∧
      1 < 32 ^ 4 := by
  refine ⟨by decide, rfl, by norm_num⟩

/-- C2 (amended): the collision-checking variants never return a live
code: a code returned by the src/app.js `generateCode` differs from every
stored record's code, and a code returned by the ClypseApp `generateCode`
has no record under its file key; the URL-fragment variant checks
nothing. -/
theorem generateCode_returned_code_not_live :
    (∀ (liveCodes : List String) (rand : Nat → Fin 32) (fuel attempt : Nat)
        (c : String),
        generateCodeFuel liveCodes rand fuel attempt = some c →
          c ∉ liveCodes) ∧
    (∀ (store : Store) (rand : Nat → Fin 32) (fuel attempt : Nat)
        (c : String),
        generateCodeStoreFuel store rand fuel attempt = some c →
          getItem store (fileKeyOf c) = none) := by
  constructor
  · intro live rand fuel a c h
    exact (generateCodeFuel_spec live rand fuel a c h).2
  · intro store rand fuel a c h
    exact (generateCodeStoreFuel_spec store rand fuel a c h).2

/-- C2 witness: at fuel 1 with the constant-zero stream both checking
variants return `AAAA` against an empty live set and an empty store, and
`AAAA` is not live there. -/
theorem generateCode_returned_code_not_live_witness :
    ("AAAA" : String) ∉ ([] : List String) ∧
      getItem ([] : Store) (fileKeyOf ("AAAA")) = none :=
  ⟨generateCode_returned_code_not_live.1 [] randZero 1 0 "AAAA" (by decide),
   generateCode_returned_code_not_live.2 [] randZero 1 0 "AAAA" (by decide)⟩

/-- C3 counterexample: with the single live code `AAAA` and the
constant-zero stream every sample collides, and no amount of fuel makes
`generateCode` return: the source has no capped retry budget and no
exhaustion report, the recursion simply never finishes on this state. -/
theorem generateCode_no_bounded_retry :
    ¬ ∃ fuel, generateCodeFuel liveAAAA randZero fuel 0 ≠ none := by
  rintro ⟨fuel, hf⟩
  exact hf (generateCodeFuel_none_of_allLive liveAAAA randZero
    (fun k => List.mem_singleton.mpr rfl) fuel 0)

/-- C3 (amended): short-code generation has no retry cap and reports no
exhaustion condition: on a state and stream in which every sample is live
it never returns, whatever fuel the recursion gets, while it returns its
first sample as soon as that sample is not live. -/
theorem generateCode_unbounded_retry :
    (∀ (liveCodes : List String) (rand : Nat → Fin 32),
      (∀ k, sampleCode rand k ∈ liveCodes) →
      ∀ fuel attempt, generateCodeFuel liveCodes rand fuel attempt = none) ∧
    (∀ (liveCodes : List String) (rand : Nat → Fin 32) (attempt : Nat),
      sampleCode rand attempt ∉ liveCodes →
      ∀ fuel, generateCodeFuel liveCodes rand (fuel + 1) attempt =
        some (sampleCode rand attempt)) := by
  constructor
  · exact generateCodeFuel_none_of_allLive
  · intro live rand a ha fuel
    simp only [generateCodeFuel]
    rw [if_neg (fun hc => ha (List.elem_iff.mp hc))]

/-- C3 witness: with every sample colliding the recursion yields nothing
at fuel 5, and with an empty live set the first sample is returned. -/
theorem generateCode_unbounded_retry_witness :
    generateCodeFuel liveAAAA randZero 5 0 = none ∧
      generateCodeFuel ([] : List String) randZero 1 0 =
        some (sampleCode randZero 0) :=
  ⟨generateCode_unbounded_retry.1 liveAAAA randZero
      (fun k => List.mem_singleton.mpr rfl) 5 0,
   generateCode_unbounded_retry.2 [] randZero 0 (by decide) 0⟩

/-- C4: storing a file under a freshly issued 4-character code and
immediately retrieving with that code succeeds and returns the stored
record unchanged: the identical base64 payload and the original file
name. -/
theorem uploadFile_accessFile_roundtrip (store : Store)
    (code name ftype base64 : String) (size now : Nat)
    (h : code.length = 4) :
    (accessFile (uploadFile store code name ftype base64 size now) code now).1 =
      .success { code := code, name := name, size := size, type := ftype,
                 base64 := base64, uploaded := now, expires := now + fileExpiry } := by
  have h4 : ¬ code.length ≠ 4 := fun hne => hne h
  have hexp : ¬ now + fileExpiry < now :=
    Nat.not_lt.mpr (Nat.le_add_right now fileExpiry)
  simp [accessFile, uploadFile, h4, getItem_setItem_self, hexp]

/-- C4 witness: a concrete upload and immediate retrieval at time 0. -/
theorem uploadFile_accessFile_roundtrip_witness :
    (accessFile
        (uploadFile [] ("AAAA") ("f.txt") ("text/plain") ("data:x") 3 0)
        ("AAAA") 0).1 =
      .success { code := "AAAA", name := "f.txt", size := 3,
                 type := "text/plain", base64 := "data:x", uploaded := 0,
                 expires := 0 + fileExpiry } :=
  uploadFile_accessFile_roundtrip [] ("AAAA") ("f.txt") ("text/plain")
    ("data:x") 3 0 (by decide)

/-- C6: retrieval with a 4-character code whose file key is unbound, or
whose stored record has passed its expiry, reports the not-found or
expired error and never yields a payload. -/
theorem accessFile_missing_or_expired (store : Store) (code : String)
    (now : Nat) (h4 : code.length = 4)
    (h : getItem store (fileKeyOf code) = none ∨
      ∃ fd, getItem store (fileKeyOf code) = some (.file fd) ∧
        now > fd.expires) :
    ((accessFile store code now).1 = .notFound ∨
      (accessFile store code now).1 = .expired) ∧
    ∀ fd, (accessFile store code now).1 ≠ .success fd := by
  have h4n : ¬ code.length ≠ 4 := fun hne => hne h4
  rcases h with hnone | ⟨fd, hfd, hexp⟩
  · constructor
    · left
      simp [accessFile, h4n, hnone]
    · intro fd
      simp [accessFile, h4n, hnone]
  · constructor
    · right
      simp [accessFile, h4n, hfd, hexp]
    · intro fd2
      simp [accessFile, h4n, hfd, hexp]

/-- C6 witness: retrieval of the never-issued code `AAAA` from the empty
store reports not found and yields no payload. -/
theorem accessFile_missing_or_expired_witness :
    ((accessFile ([] : Store) ("AAAA") 0).1 = .notFound ∨
      (accessFile ([] : Store) ("AAAA") 0).1 = .expired) ∧
    ∀ fd, (accessFile ([] : Store) ("AAAA") 0).1 ≠ .success fd :=
  accessFile_missing_or_expired [] ("AAAA") 0 (by decide) (Or.inl rfl)

/-- C7 counterexample: the 4-character input `O0I1` uses only characters
outside the allowed alphabet, yet neither retrieval variant rejects it as
invalid: both perform the lookup and report a lookup miss, because the
format check tests the length only. -/
theorem accessFile_alphabet_not_checked :
    accessFileApp [] ("O0I1") = .notFound ∧
      (accessFile ([] : Store) ("O0I1") 0).1 = .notFound ∧
      ("O0I1" : String).length = 4 ∧
      ¬ ∀ ch ∈ ("O0I1" : String).toList, ch ∈ codeChars.toList := by
  refine ⟨by decide, by decide, by decide, by decide⟩

/-- C7 (amended): an input that is not exactly 4 characters long is
rejected as invalid by both retrieval variants, uniformly in the stored
state and hence before any lookup; alphabet membership of the input is not
part of the check. -/
theorem accessFile_rejects_bad_length (code : String)
    (h : code.length ≠ 4) :
    (∀ files, accessFileApp files code = .invalid) ∧
    (∀ (store : Store) (now : Nat),
      accessFile store code now = (.invalidCode, store)) := by
  constructor
  · intro files
    simp [accessFileApp, h]
  · intro store now
    simp [accessFile, h]

/-- C7 witness: the two-character input `AB` is rejected as invalid by
both variants on concrete empty states. -/
theorem accessFile_rejects_bad_length_witness :
    accessFileApp [] ("AB") = .invalid ∧
      accessFile ([] : Store) ("AB") 0 = (.invalidCode, ([] : Store)) :=
  ⟨(accessFile_rejects_bad_length ("AB") (by decide)).1 [],
   (accessFile_rejects_bad_length ("AB") (by decide)).2 [] 0⟩

/-- Helper: the source truncation pattern is a plain `take`. -/
theorem truncate_eq_take {α : Type} (l : List α) (n : Nat) :
    (if l.length > n then l.take n else l) = l.take n := by
  by_cases h : l.length > n
  · rw [if_pos h]
  · rw [if_neg h, List.take_of_length_le (Nat.le_of_not_lt h)]

/-- C5 counterexample: a message appended by a second view to a room that
already holds 100 stored messages is truncated back to 100 entries, so the
first view's next poll tick sees an unchanged length and keeps its stale
rendered list: the appended message is stored but not reflected within one
poll interval. -/
theorem poll_misses_append_at_cap :
    checkForNewMessages (sendMessage storeFull ("QQQQ") msgNew)
        (some ("QQQQ")) 100 roomFull.messages = (100, roomFull.messages) ∧
      getItem (sendMessage storeFull ("QQQQ") msgNew) (roomKeyOf ("QQQQ")) =
        some (.room { roomFull with
          messages := msgNew :: List.replicate 99 msgOld }) ∧
      msgNew ∉ roomFull.messages := by
  refine ⟨by decide, by decide, by decide⟩

/-- C5 (amended): when another view appends a message to a stored room
holding fewer than 100 messages, a participant view whose last-seen count
matches the stored room sees a changed length at its next poll tick and
replaces its rendered list with the stored list, which now carries the
appended message in front. -/
theorem poll_detects_append_below_cap (store : Store) (room : String)
    (rd : RoomData) (msg : Message) (rendered : List Message)
    (hrd : getItem store (roomKeyOf room) = some (.room rd))
    (hlen : rd.messages.length < 100) :
    checkForNewMessages (sendMessage store room msg) (some room)
        rd.messages.length rendered =
      (rd.messages.length + 1, msg :: rd.messages) := by
  have hng : ¬ (msg :: rd.messages).length > 100 := by
    simp only [List.length_cons]
    omega
  simp only [sendMessage, hrd, if_neg hng, checkForNewMessages,
    getItem_setItem_self]
  rw [if_pos (by simp)]
  simp

/-- C5 witness: appending to the empty room is detected at the next tick
and the rendered list becomes the stored singleton. -/
theorem poll_detects_append_below_cap_witness :
    checkForNewMessages (sendMessage storeEmptyRoom ("QQQQ") msgNew)
        (some ("QQQQ")) roomEmptyQ.messages.length [] =
      (roomEmptyQ.messages.length + 1, msgNew :: roomEmptyQ.messages) :=
  poll_detects_append_below_cap storeEmptyRoom ("QQQQ") roomEmptyQ msgNew []
    (by decide) (by decide)

/-- C8: one run of the expiry sweep keeps a stored entry, with its content
unchanged, exactly when the entry was stored and no binding of its key is
collected for removal, where a key is collected exactly when it is
file-prefixed and its record has passed its expiry (or fails to parse). -/
theorem cleanupExpiredFiles_exact (now : Nat) (s : Store) (k : String)
    (v : StoredValue) :
    (k, v) ∈ cleanupExpiredFiles now s ↔
      ((k, v) ∈ s ∧ ∀ v2, (k, v2) ∈ s → shouldRemove now k v2 = false) := by
  simp only [cleanupExpiredFiles]
  rw [List.mem_filter]
  constructor
  · rintro ⟨hm, hb⟩
    refine ⟨hm, fun v2 hv2 => ?_⟩
    cases hsr : shouldRemove now k v2 with
    | false => rfl
    | true =>
      exfalso
      have hk : k ∈ (s.filter fun kv => shouldRemove now kv.1 kv.2).map (·.1) :=
        List.mem_map.mpr ⟨(k, v2), List.mem_filter.mpr ⟨hv2, hsr⟩, rfl⟩
      rw [show ((s.filter fun kv => shouldRemove now kv.1 kv.2).map (·.1)).contains k
            = true from List.elem_iff.mpr hk] at hb
      exact absurd hb (by decide)
  · rintro ⟨hm, hall⟩
    refine ⟨hm, ?_⟩
    cases hc : ((s.filter fun kv => shouldRemove now kv.1 kv.2).map (·.1)).contains k with
    | false => rfl
    | true =>
      exfalso
      have hk := List.elem_iff.mp (show List.elem k _ = true from hc)
      obtain ⟨⟨k2, v2⟩, hmem2, hk2⟩ := List.mem_map.mp hk
      obtain ⟨hv2s, hsr⟩ := List.mem_filter.mp hmem2
      cases hk2
      rw [hall v2 hv2s] at hsr
      exact Bool.noConfusion hsr

/-- C8 witness: at time 5 the sweep keeps the fresh record of the
two-record store. -/
theorem cleanupExpiredFiles_exact_witness :
    (fileKeyOf ("AAAA"), StoredValue.file fdFresh) ∈
      cleanupExpiredFiles 5 storeTwoFiles :=
  (cleanupExpiredFiles_exact 5 storeTwoFiles (fileKeyOf ("AAAA"))
      (.file fdFresh)).mpr
    ⟨by decide, by
      intro v2 hv2
      rcases List.mem_cons.mp hv2 with h1 | h2
      · have hv : v2 = .file fdFresh := congrArg Prod.snd h1
        subst hv
        decide
      · rcases List.mem_cons.mp h2 with h3 | h4
        · have hkk : fileKeyOf ("AAAA") = fileKeyOf ("BBBB") :=
            congrArg Prod.fst h3
          exact absurd hkk (by decide)
        · exact absurd h4 (List.not_mem_nil _)⟩

/-- C9: each of the three bounded append operations leaves the stored list
equal to the first N entries of the new entry prepended onto the old list,
hence at most N entries with the newest entries retained in front. -/
theorem append_bounded_most_recent :
    (∀ (history : List HistItem) (content id timestamp deviceSource : String),
      4 ≤ content.length →
      (history.any fun item => item.content == content) = false →
      addToClipboardHistory history content id timestamp deviceSource =
          ({ id := id, content := String.mk (content.toList.take 200),
             timestamp := timestamp,
             deviceSource := deviceSource } :: history).take 50 ∧
        (addToClipboardHistory history content id timestamp
            deviceSource).length ≤ 50) ∧
    (∀ (store : Store) (room : String) (rd : RoomData) (msg : Message),
      getItem store (roomKeyOf room) = some (.room rd) →
      ∃ rd2, getItem (sendMessage store room msg) (roomKeyOf room) =
          some (.room rd2) ∧
        rd2.messages = (msg :: rd.messages).take 100 ∧
        rd2.messages.length ≤ 100) ∧
    (∀ (messages : List SimpleMessage) (msg : SimpleMessage),
      sendMessageSimple messages msg = (msg :: messages).take 50 ∧
        (sendMessageSimple messages msg).length ≤ 50) := by
  refine ⟨?_, ?_, ?_⟩
  · intro history content id timestamp deviceSource hlen hdup
    have hn4 : ¬ content.length < 4 := Nat.not_lt.mpr hlen
    have heq : addToClipboardHistory history content id timestamp deviceSource =
        ({ id := id, content := String.mk (content.toList.take 200),
           timestamp := timestamp,
           deviceSource := deviceSource } :: history).take 50 := by
      simp only [addToClipboardHistory, if_neg hn4, hdup]
      rw [if_neg (by simp), truncate_eq_take]
    refine ⟨heq, ?_⟩
    rw [heq]
    exact List.length_take_le _ _
  · intro store room rd msg hrd
    refine ⟨{ rd with messages := (msg :: rd.messages).take 100 }, ?_, rfl,
      List.length_take_le _ _⟩
    simp only [sendMessage, hrd, truncate_eq_take, getItem_setItem_self]
  · intro messages msg
    have heq : sendMessageSimple messages msg = (msg :: messages).take 50 := by
      simp only [sendMessageSimple, truncate_eq_take]
    exact ⟨heq, heq ▸ List.length_take_le _ _⟩

/-- C9 witness: the three bounded appends at concrete inputs. -/
theorem append_bounded_most_recent_witness :
    (addToClipboardHistory [] ("hello") ("i") ("t") ("d") =
        ({ id := "i", content := String.mk (("hello" : String).toList.take 200),
           timestamp := "t", deviceSource := "d" } :: []).take 50 ∧
      (addToClipboardHistory [] ("hello") ("i") ("t") ("d")).length ≤ 50) ∧
    (∃ rd2, getItem (sendMessage storeEmptyRoom ("QQQQ") msgNew)
          (roomKeyOf ("QQQQ")) = some (.room rd2) ∧
        rd2.messages = (msgNew :: roomEmptyQ.messages).take 100 ∧
        rd2.messages.length ≤ 100) ∧
    (sendMessageSimple [] simpleMsg = (simpleMsg :: []).take 50 ∧
      (sendMessageSimple [] simpleMsg).length ≤ 50) :=
  ⟨append_bounded_most_recent.1 [] ("hello") ("i") ("t") ("d") (by decide)
      (by decide),
   append_bounded_most_recent.2.1 storeEmptyRoom ("QQQQ") roomEmptyQ msgNew
      (by decide),
   append_bounded_most_recent.2.2 [] simpleMsg⟩

/-- C10: leaving a room cancels both timers, clears the joined room, and
rewrites only the room record: the leaving device's entry is removed, the
message list and every other device entry are unchanged, and every other
stored key is untouched. -/
theorem leaveRoom_frame (st : PollState) (deviceId : String) (store : Store)
    (room : String) (rd : RoomData)
    (hcur : st.currentRoom = some room)
    (hrd : getItem store (roomKeyOf room) = some (.room rd)) :
    (leaveRoom st deviceId store).1.pollTimer = false ∧
    (leaveRoom st deviceId store).1.heartbeatTimer = false ∧
    (leaveRoom st deviceId store).1.currentRoom = none ∧
    (∃ rd2, getItem (leaveRoom st deviceId store).2 (roomKeyOf room) =
        some (.room rd2) ∧
      rd2.messages = rd.messages ∧
      lookupDev rd2.devices deviceId = none ∧
      ∀ d, d ≠ deviceId → lookupDev rd2.devices d = lookupDev rd.devices d) ∧
    (∀ k2, k2 ≠ roomKeyOf room →
      getItem (leaveRoom st deviceId store).2 k2 = getItem store k2) := by
  refine ⟨rfl, rfl, rfl, ?_, ?_⟩
  · refine ⟨{ rd with
        devices := rd.devices.filter fun d => d.1 != deviceId }, ?_, rfl, ?_, ?_⟩
    · simp only [leaveRoom, hcur, hrd, getItem_setItem_self]
    · simp only [lookupDev, find?_key_filter_self, Option.map_none']
    · intro d hd
      simp only [lookupDev, find?_key_filter_ne rd.devices deviceId d hd]
  · intro k2 hk2
    simp only [leaveRoom, hcur, hrd]
    exact getItem_setItem_ne store (roomKeyOf room) k2 _ hk2

/-- C10 witness: device `d1` leaves the two-device room: both timers stop,
the room is cleared, only the `d1` entry disappears. -/
theorem leaveRoom_frame_witness :
    (leaveRoom pollSt ("d1") storeWithDevs).1.pollTimer = false ∧
    (leaveRoom pollSt ("d1") storeWithDevs).1.heartbeatTimer = false ∧
    (leaveRoom pollSt ("d1") storeWithDevs).1.currentRoom = none ∧
    (∃ rd2, getItem (leaveRoom pollSt ("d1") storeWithDevs).2
        (roomKeyOf ("QQQQ")) = some (.room rd2) ∧
      rd2.messages = roomWithDevs.messages ∧
      lookupDev rd2.devices ("d1") = none ∧
      ∀ d, d ≠ "d1" →
        lookupDev rd2.devices d = lookupDev roomWithDevs.devices d) ∧
    (∀ k2, k2 ≠ roomKeyOf ("QQQQ") →
      getItem (leaveRoom pollSt ("d1") storeWithDevs).2 k2 =
        getItem storeWithDevs k2) :=
  leaveRoom_frame pollSt ("d1") storeWithDevs ("QQQQ") roomWithDevs rfl
    (by decide)

end Clypse
